import Mathlib

set_option maxHeartbeats 1600000

/-!
Shallow embedding of the websurfx aggregation core:
* `src/cache/cacher.rs` — the fault-tolerant pooled redis cache client
  (`RedisCache` with `hash_url`, `cached_json`, `cache_results`);
* `src/engines/duckduckgo.rs` — the DuckDuckGo engine adapter
  (URL construction with the pagination quirk, empty-result detection,
  selector-based extraction).

Machine integers are modelled as `Nat` with explicit `% 2 ^ w` where
overflow matters (the `u32` pagination arithmetic, the 32-bit md5 words).
A Rust panic (out-of-bounds `Vec` index, `Option::unwrap` on `None`) is
modelled by an explicit `crash`/`none` outcome.
-/

/-! ### md5, as used by `RedisCache::hash_url` (`format!("{:?}", md5::compute(url))`).
The md5 crate is an external collaborator of `cacher.rs`; it is embedded here in
full so that `hash_url` is a genuine, executable function of the url string. -/

/-- Little-endian byte rendering of one 32-bit word of the md5 digest. -/
def leWord (w : Nat) : List Nat :=
  [w % 256, w / 2 ^ 8 % 256, w / 2 ^ 16 % 256, w / 2 ^ 24 % 256]

/-- Little-endian rendering of the 64-bit message-length field of md5 padding. -/
def leBytes8 (n : Nat) : List Nat :=
  [n % 256, n / 2 ^ 8 % 256, n / 2 ^ 16 % 256, n / 2 ^ 24 % 256,
   n / 2 ^ 32 % 256, n / 2 ^ 40 % 256, n / 2 ^ 48 % 256, n / 2 ^ 56 % 256]

/-- The md5 round constants (`K[i] = floor(2^32 * |sin(i + 1)|)`). -/
def md5K : List Nat :=
  [0xd76aa478, 0xe8c7b756, 0x242070db, 0xc1bdceee,
   0xf57c0faf, 0x4787c62a, 0xa8304613, 0xfd469501,
   0x698098d8, 0x8b44f7af, 0xffff5bb1, 0x895cd7be,
   0x6b901122, 0xfd987193, 0xa679438e, 0x49b40821,
   0xf61e2562, 0xc040b340, 0x265e5a51, 0xe9b6c7aa,
   0xd62f105d, 0x02441453, 0xd8a1e681, 0xe7d3fbc8,
   0x21e1cde6, 0xc33707d6, 0xf4d50d87, 0x455a14ed,
   0xa9e3e905, 0xfcefa3f8, 0x676f02d9, 0x8d2a4c8a,
   0xfffa3942, 0x8771f681, 0x6d9d6122, 0xfde5380c,
   0xa4beea44, 0x4bdecfa9, 0xf6bb4b60, 0xbebfbc70,
   0x289b7ec6, 0xeaa127fa, 0xd4ef3085, 0x04881d05,
   0xd9d4d039, 0xe6db99e5, 0x1fa27cf8, 0xc4ac5665,
   0xf4292244, 0x432aff97, 0xab9423a7, 0xfc93a039,
   0x655b59c3, 0x8f0ccc92, 0xffeff47d, 0x85845dd1,
   0x6fa87e4f, 0xfe2ce6e0, 0xa3014314, 0x4e0811a1,
   0xf7537e82, 0xbd3af235, 0x2ad7d2bb, 0xeb86d391]

/-- The md5 per-round left-rotation amounts. -/
def md5S : List Nat :=
  [7, 12, 17, 22, 7, 12, 17, 22, 7, 12, 17, 22, 7, 12, 17, 22,
   5, 9, 14, 20, 5, 9, 14, 20, 5, 9, 14, 20, 5, 9, 14, 20,
   4, 11, 16, 23, 4, 11, 16, 23, 4, 11, 16, 23, 4, 11, 16, 23,
   6, 10, 15, 21, 6, 10, 15, 21, 6, 10, 15, 21, 6, 10, 15, 21]

/-- 32-bit left rotation on `Nat` (inputs below `2 ^ 32`). -/
def lrot32 (x s : Nat) : Nat :=
  (x * 2 ^ s + x / 2 ^ (32 - s)) % 2 ^ 32

/-- The md5 nonlinear function of round `i`. -/
def md5F (b c d i : Nat) : Nat :=
  if i < 16 then Nat.lor (Nat.land b c) (Nat.land (Nat.xor b 0xffffffff) d)
  else if i < 32 then Nat.lor (Nat.land d b) (Nat.land (Nat.xor d 0xffffffff) c)
  else if i < 48 then Nat.xor (Nat.xor b c) d
  else Nat.xor c (Nat.lor b (Nat.xor d 0xffffffff))

/-- The md5 message-word index of round `i`. -/
def md5G (i : Nat) : Nat :=
  if i < 16 then i
  else if i < 32 then (5 * i + 1) % 16
  else if i < 48 then (3 * i + 5) % 16
  else (7 * i) % 16

/-- One md5 round on the state `(a, b, c, d)`. -/
def md5Round (M : Nat → Nat) (st : Nat × Nat × Nat × Nat) (i : Nat) :
    Nat × Nat × Nat × Nat :=
  let f := (md5F st.2.1 st.2.2.1 st.2.2.2 i + st.1 + md5K.getD i 0 + M (md5G i)) % 2 ^ 32
  (st.2.2.2, (st.2.1 + lrot32 f (md5S.getD i 0)) % 2 ^ 32, st.2.1, st.2.2.1)

/-- The `j`-th little-endian 32-bit word of a 64-byte chunk. -/
def wordAt (chunk : List Nat) (j : Nat) : Nat :=
  chunk.getD (4 * j) 0 + 2 ^ 8 * chunk.getD (4 * j + 1) 0 +
    2 ^ 16 * chunk.getD (4 * j + 2) 0 + 2 ^ 24 * chunk.getD (4 * j + 3) 0

/-- Process one 64-byte chunk of the padded message. -/
def md5ProcessChunk (h : Nat × Nat × Nat × Nat) (chunk : List Nat) :
    Nat × Nat × Nat × Nat :=
  let r := (List.range 64).foldl (md5Round (wordAt chunk)) h
  ((h.1 + r.1) % 2 ^ 32, (h.2.1 + r.2.1) % 2 ^ 32,
   (h.2.2.1 + r.2.2.1) % 2 ^ 32, (h.2.2.2 + r.2.2.2) % 2 ^ 32)

/-- Split a byte list into consecutive chunks of 64 bytes. -/
def chunks64 (l : List Nat) : List (List Nat) :=
  match l with
  | [] => []
  | b :: rest => ((b :: rest).take 64) :: chunks64 ((b :: rest).drop 64)
termination_by l.length
decreasing_by simp [List.length_drop]; omega

/-- md5 padding: a `0x80` byte, zeros to 56 mod 64, then the bit length. -/
def md5Pad (msg : List Nat) : List Nat :=
  msg ++ 0x80 :: (List.replicate ((119 - msg.length % 64) % 64) 0 ++
    leBytes8 (msg.length * 8 % 2 ^ 64))

/-- The md5 initial state. -/
def md5Init : Nat × Nat × Nat × Nat :=
  (0x67452301, 0xefcdab89, 0x98badcfe, 0x10325476)

/-- The 16-byte md5 digest of a byte list. -/
def md5Bytes (msg : List Nat) : List Nat :=
  let r := (chunks64 (md5Pad msg)).foldl md5ProcessChunk md5Init
  leWord r.1 ++ leWord r.2.1 ++ leWord r.2.2.1 ++ leWord r.2.2.2

/-- Lowercase hex digit for a value below 16. -/
def hexDigitChar (n : Nat) : Char :=
  "0123456789abcdef".toList.getD n '0'

/-- Two lowercase hex characters per byte, as `Debug` for `md5::Digest` prints. -/
def bytesToHexChars : List Nat → List Char
  | [] => []
  | b :: rest => hexDigitChar (b / 16) :: hexDigitChar (b % 16) :: bytesToHexChars rest

/-- The 32-character lowercase hex md5 digest of a string's UTF-8 bytes:
the value of `format!("{:?}", md5::compute(s))`. -/
def md5Hex (s : String) : String :=
  String.mk (bytesToHexChars (md5Bytes (s.toUTF8.toList.map UInt8.toNat)))

/-! ### The cache data model (`src/cache/cacher.rs`). -/

/-- A `redis::RedisError` at the granularity the failover loop observes it:
its `is_connection_dropped()` classification plus an opaque payload. -/
structure RedisError where
  is_connection_dropped : Bool
  code : Nat
deriving DecidableEq, Repr

/-- `PoolError` from `src/cache/error.rs` as used by `cacher.rs`. -/
inductive PoolError where
  | PoolExhaustionWithConnectionDropError : PoolError
  | RedisError : RedisError → PoolError
deriving DecidableEq, Repr

/-- A redis command as issued by the cache operations. -/
inductive RedisCmd where
  | getCmd : String → RedisCmd
  | setExCmd : String → String → Nat → RedisCmd
deriving DecidableEq, Repr

/-- Result of one whole cache operation. `crash` models a Rust panic
(the out-of-bounds `Vec` index `self.connection_pool[i]`). -/
inductive Outcome (β : Type) where
  | ok : β → Outcome β
  | err : PoolError → Outcome β
  | crash : Outcome β
deriving DecidableEq, Repr

/-- A pool slot (`redis::aio::ConnectionManager`): its response to a `GET key`
and to a `SET key value EX ttl` during one logical operation. -/
structure ConnectionManager where
  get : String → Except RedisError String
  set_ex : String → String → Nat → Except RedisError Unit

/-- The `RedisCache` struct of `cacher.rs`. -/
structure RedisCache where
  connection_pool : List ConnectionManager
  pool_size : Nat
  current_connection : Nat

/-- `RedisCache::hash_url`: `format!("{:?}", compute(url))`; ignores `self`. -/
def hash_url (_self : RedisCache) (url : String) : String :=
  md5Hex url

/-- The shared failover loop of `cached_json` and `cache_results` (their retry
loops are textually identical in the source). `cur` is `current_connection`,
`result` the response of the attempt just made. Returns the outcome, the final
`current_connection`, and the trace of `(pool index, command)` pool accesses
(one entry per attempt, in order). -/
def failoverLoop {β : Type} (run : ConnectionManager → Except RedisError β)
    (cmd : RedisCmd) (pool : List ConnectionManager) (pool_size : Nat)
    (cur : Nat) (result : Except RedisError β) (trace : List (Nat × RedisCmd)) :
    Outcome β × Nat × List (Nat × RedisCmd) :=
  match result with
  | Except.ok v => (Outcome.ok v, cur, trace)
  | Except.error e =>
    if e.is_connection_dropped then
      if cur + 1 = pool_size then
        (Outcome.err PoolError.PoolExhaustionWithConnectionDropError, cur + 1, trace)
      else
        if h : cur + 1 < pool.length then
          failoverLoop run cmd pool pool_size (cur + 1)
            (run (pool.get ⟨cur + 1, h⟩)) (trace ++ [(cur + 1, cmd)])
        else (Outcome.crash, cur + 1, trace ++ [(cur + 1, cmd)])
    else (Outcome.err (PoolError.RedisError e), cur, trace)
termination_by pool.length - cur
decreasing_by simp_wf; omega

/-- `RedisCache::cached_json`: reset the cursor, hash the url, issue
`GET hashed_url_string` on `connection_pool[0]` (a panic if the pool is
empty), then run the failover loop. -/
def cached_json (self : RedisCache) (url : String) :
    Outcome String × RedisCache × List (Nat × RedisCmd) :=
  let self0 : RedisCache := { self with current_connection := 0 }
  let hashed_url_string : String := hash_url self0 url
  if h : 0 < self0.connection_pool.length then
    let r := failoverLoop (fun c => c.get hashed_url_string)
      (RedisCmd.getCmd hashed_url_string) self0.connection_pool self0.pool_size 0
      ((self0.connection_pool.get ⟨0, h⟩).get hashed_url_string)
      [(0, RedisCmd.getCmd hashed_url_string)]
    (r.1, { self0 with current_connection := r.2.1 }, r.2.2)
  else (Outcome.crash, self0, [(0, RedisCmd.getCmd hashed_url_string)])

/-- `RedisCache::cache_results`: reset the cursor, hash the url, issue
`SET hashed_url_string json_results EX 60` on `connection_pool[0]` (a panic if
the pool is empty), then run the failover loop. -/
def cache_results (self : RedisCache) (json_results : String) (url : String) :
    Outcome Unit × RedisCache × List (Nat × RedisCmd) :=
  let self0 : RedisCache := { self with current_connection := 0 }
  let hashed_url_string : String := hash_url self0 url
  if h : 0 < self0.connection_pool.length then
    let r := failoverLoop (fun c => c.set_ex hashed_url_string json_results 60)
      (RedisCmd.setExCmd hashed_url_string json_results 60)
      self0.connection_pool self0.pool_size 0
      ((self0.connection_pool.get ⟨0, h⟩).set_ex hashed_url_string json_results 60)
      [(0, RedisCmd.setExCmd hashed_url_string json_results 60)]
    (r.1, { self0 with current_connection := r.2.1 }, r.2.2)
  else (Outcome.crash, self0, [(0, RedisCmd.setExCmd hashed_url_string json_results 60)])

/-- A key/value store with per-key value and ttl. -/
def Store : Type :=
  String → Option (String × Nat)

/-- Modelled from the spec: the cache backend protocol of §6 — `GET key`
leaves the store unchanged, `SET key value EX ttl` binds `key` to
`(value, ttl)`. The redis server itself is outside the supplied sources. -/
def execStore (st : Store) : RedisCmd → Store
  | RedisCmd.getCmd _ => st
  | RedisCmd.setExCmd k v ttl => fun k' => if k' = k then some (v, ttl) else st k'

/-- A harmless placeholder slot, used only to give `List.getD` a fallback. -/
def connDefault : ConnectionManager :=
  ⟨fun _ => Except.error ⟨true, 0⟩, fun _ _ _ => Except.error ⟨true, 0⟩⟩

/-- The pool slot at index `i` (total version of `connection_pool[i]`). -/
def connAt (pool : List ConnectionManager) (i : Nat) : ConnectionManager :=
  pool.getD i connDefault

/-! ### The DuckDuckGo adapter (`src/engines/duckduckgo.rs`). -/

/-- `SearchResult` — modelled from the spec (§3): the unit record produced by an
adapter; `results/aggregation_models.rs` is not among the supplied sources.
`SearchResult::new(title, url, description, engines)` fills the four fields. -/
structure SearchResult where
  title : String
  url : String
  description : String
  engines : List String
deriving DecidableEq, Repr

/-- `EngineError` — modelled from the spec (§7): `engine_models.rs` is not among
the supplied sources; only the variants `duckduckgo.rs` uses appear here. -/
inductive EngineError where
  | EmptyResultSet : EngineError
  | RequestError : EngineError
  | UnexpectedError : EngineError
deriving DecidableEq, Repr

/-- One element matching the `.result` selector, at the granularity the adapter
reads it: the `inner_html()` of its first `.result__a` / `.result__url` /
`.result__snippet` descendant, when present. -/
structure ResultContainer where
  titleHtml : Option String
  urlHtml : Option String
  snippetHtml : Option String
deriving DecidableEq, Repr

/-- A parsed HTML document at selector granularity: whether a `.no-results`
element is present, and the `.result` containers in document order. The
`scraper` HTML parser is an external collaborator. -/
structure HtmlDoc where
  no_results : Bool
  containers : List ResultContainer
deriving DecidableEq, Repr

/-- Whitespace as `str::trim` strips it: `char::is_whitespace`, i.e. the
Unicode `White_Space` property — tab, LF, VT, FF, CR, space, NEL, NBSP,
ogham space mark, the U+2000–U+200A spaces, line and paragraph separators,
narrow no-break space, medium mathematical space, ideographic space. -/
def isWhitespaceChar (ch : Char) : Bool :=
  ch.toNat = 0x9 || ch.toNat = 0xA || ch.toNat = 0xB || ch.toNat = 0xC ||
  ch.toNat = 0xD || ch.toNat = 0x20 || ch.toNat = 0x85 || ch.toNat = 0xA0 ||
  ch.toNat = 0x1680 || (0x2000 ≤ ch.toNat && ch.toNat ≤ 0x200A) ||
  ch.toNat = 0x2028 || ch.toNat = 0x2029 || ch.toNat = 0x202F ||
  ch.toNat = 0x205F || ch.toNat = 0x3000

/-- Rust's `str::trim`: remove leading and trailing `White_Space` characters. -/
def trimStr (s : String) : String :=
  String.mk (((s.toList.dropWhile isWhitespaceChar).reverse.dropWhile
    isWhitespaceChar).reverse)

/-- The per-container body of the extraction closure: `unwrap()` on each of the
three sub-elements (so `none` — a panic — when one is missing), then
`SearchResult::new(title.trim(), "https://" ++ url.trim(), snippet.trim(),
["duckduckgo"])`. -/
def extractResult (c : ResultContainer) : Option SearchResult :=
  match c.titleHtml, c.urlHtml, c.snippetHtml with
  | some t, some u, some d =>
    some { title := trimStr t, url := "https://" ++ trimStr u,
           description := trimStr d, engines := ["duckduckgo"] }
  | _, _, _ => none

/-- Driving the result iterator: the first container whose `unwrap()` panics
aborts the whole collection (`none`). -/
def extractAll : List ResultContainer → Option (List SearchResult)
  | [] => some []
  | c :: rest =>
    match extractResult c, extractAll rest with
    | some r, some rs => some (r :: rs)
    | _, _ => none

/-- `HashMap` insertion with overwrite-on-duplicate-key (last write wins). -/
def insertKV (m : List (String × SearchResult)) (k : String) (v : SearchResult) :
    List (String × SearchResult) :=
  if m.any (fun p => p.1 = k) then m.map (fun p => if p.1 = k then (k, v) else p)
  else m ++ [(k, v)]

/-- `collect::<HashMap<String, SearchResult>>()` over
`(search_result.url.clone(), search_result)` pairs. -/
def buildMap (rs : List SearchResult) : List (String × SearchResult) :=
  rs.foldl (fun m r => insertKV m r.url r) []

/-- The post-fetch body of `DuckDuckGo::results`: empty-result detection on the
`.no-results` selector first, then extraction of every `.result` container.
`none` models a panic inside the extraction closure. -/
def duckduckgoExtract (doc : HtmlDoc) :
    Option (Except EngineError (List (String × SearchResult))) :=
  if doc.no_results then some (Except.error EngineError.EmptyResultSet)
  else
    match extractAll doc.containers with
    | some rs => some (Except.ok (buildMap rs))
    | none => none

/-- The request URL built by `DuckDuckGo::results`. `page` is a `u32`; the
offset arithmetic `(page / 2 + (page % 2)) * 30` and `... + 1` is 32-bit, hence
the explicit `% 2 ^ 32`. -/
def duckduckgoUrl (query : String) (page : Nat) : String :=
  match page with
  | 1 | 0 => "https://html.duckduckgo.com/html/?q=" ++ query ++ "&s=&dc=&v=1&o=json&api=/d.js"
  | _ =>
    "https://duckduckgo.com/html/?q=" ++ query ++ "&s=" ++
      toString ((page / 2 + page % 2) * 30 % 2 ^ 32) ++ "&dc=" ++
      toString (((page / 2 + page % 2) * 30 % 2 ^ 32 + 1) % 2 ^ 32) ++
      "&v=1&o=json&api=/d.js"

/-- Strip `marker` from the front of `s`, if it is there. -/
def dropMarker : List Char → List Char → Option (List Char)
  | [], s => some s
  | _ :: _, [] => none
  | m :: ms, c :: cs => if c = m then dropMarker ms cs else none

/-- The characters following the first occurrence of `marker`, if any. -/
def findAfter (marker : List Char) : List Char → Option (List Char)
  | [] => dropMarker marker []
  | c :: cs =>
    match dropMarker marker (c :: cs) with
    | some rest => some rest
    | none => findAfter marker cs

/-- Observer for claims about URL query parameters: the text between the first
occurrence of `marker` and the next ampersand. -/
def paramValueAfter (url marker : String) : Option String :=
  (findAfter marker.toList url.toList).map
    (fun r => String.mk (r.takeWhile (fun ch => ch ≠ '&')))

/-! ### Concrete pool slots used by witnesses and counterexamples. -/

/-- A healthy slot: every command succeeds, `GET` answering `v`. -/
def connGood (v : String) : ConnectionManager :=
  ⟨fun _ => Except.ok v, fun _ _ _ => Except.ok ()⟩

/-- A slot whose transport is gone: every command fails connection-dropped. -/
def connDropGone : ConnectionManager :=
  ⟨fun _ => Except.error ⟨true, 1⟩, fun _ _ _ => Except.error ⟨true, 1⟩⟩

/-- A slot failing with a protocol-level (non-dropped) error. -/
def connProto : ConnectionManager :=
  ⟨fun _ => Except.error ⟨false, 2⟩, fun _ _ _ => Except.error ⟨false, 2⟩⟩

/-- Connection `i` of `pool` answers the attempt made by `run` with a
connection-dropped error. -/
def runDropsAt {β : Type} (run : ConnectionManager → Except RedisError β)
    (pool : List ConnectionManager) (i : Nat) : Prop :=
  ∃ e : RedisError, run (connAt pool i) = Except.error e ∧ e.is_connection_dropped = true

/-- The store with no entries. -/
def emptyStore : Store :=
  fun _ => none

/-! ### Helper lemmas. -/

theorem getD_eq_get {α : Type} (d : α) :
    ∀ (l : List α) (i : Nat) (h : i < l.length), l.getD i d = l.get ⟨i, h⟩
  | [], i, h => absurd h (Nat.not_lt_zero i)
  | _ :: _, 0, _ => rfl
  | _ :: t, i + 1, h => getD_eq_get d t i (Nat.lt_of_succ_lt_succ h)

theorem connAt_eq (pool : List ConnectionManager) (i : Nat) (h : i < pool.length) :
    connAt pool i = pool.get ⟨i, h⟩ :=
  getD_eq_get connDefault pool i h

/-- Walking the failover loop over `d` consecutive connection-dropped attempts:
the loop from cursor `c` equals the loop from cursor `c + d`, with one trace
entry per intermediate attempt. -/
theorem failoverLoop_walk {β : Type} (run : ConnectionManager → Except RedisError β)
    (cmd : RedisCmd) (pool : List ConnectionManager) (N : Nat)
    (hlen : pool.length = N) :
    ∀ (d c : Nat) (tr : List (Nat × RedisCmd)), c + d < N →
      (∀ i, c ≤ i → i < c + d → runDropsAt run pool i) →
      failoverLoop run cmd pool N c (run (connAt pool c)) tr =
        failoverLoop run cmd pool N (c + d) (run (connAt pool (c + d)))
          (tr ++ (List.range' (c + 1) d).map (fun i => (i, cmd))) := by
  intro d
  induction d with
  | zero => intro c tr _ _; simp
  | succ d ih =>
    intro c tr hcd hdrops
    obtain ⟨e, he, hdrop⟩ := hdrops c (Nat.le_refl c) (by omega)
    rw [he, failoverLoop]
    simp only [hdrop, if_true]
    rw [if_neg (show ¬ c + 1 = N by omega)]
    rw [dif_pos (show c + 1 < pool.length by omega)]
    rw [← connAt_eq pool (c + 1) (by omega)]
    have harith : c + (d + 1) = (c + 1) + d := by omega
    rw [harith]
    have htr : tr ++ (List.range' (c + 1) (d + 1)).map (fun i => (i, cmd)) =
        (tr ++ [(c + 1, cmd)]) ++ (List.range' (c + 2) d).map (fun i => (i, cmd)) := by
      simp [List.range'_succ]
    rw [htr]
    exact ih (c + 1) (tr ++ [(c + 1, cmd)]) (by omega)
      (fun i h1 h2 => hdrops i (by omega) (by omega))

/-- The failover loop only appends to the trace, and every appended trace entry
carries the operation's one fixed command. -/
theorem failoverLoop_trace_aux {β : Type} (run : ConnectionManager → Except RedisError β)
    (cmd : RedisCmd) (pool : List ConnectionManager) (N : Nat) :
    ∀ (fuel cur : Nat) (r : Except RedisError β) (tr : List (Nat × RedisCmd)),
      pool.length - cur ≤ fuel →
      ∃ l, (failoverLoop run cmd pool N cur r tr).2.2 = tr ++ l ∧
        ∀ p ∈ l, p.2 = cmd := by
  intro fuel
  induction fuel with
  | zero =>
    intro cur r tr hf
    cases r with
    | ok v => exact ⟨[], by simp [failoverLoop], by simp⟩
    | error e =>
      rw [failoverLoop]
      by_cases hd : e.is_connection_dropped = true
      · simp only [hd, if_true]
        by_cases hN : cur + 1 = N
        · rw [if_pos hN]; exact ⟨[], by simp, by simp⟩
        · rw [if_neg hN]
          by_cases hlt : cur + 1 < pool.length
          · exact absurd hlt (by omega)
          · rw [dif_neg hlt]
            exact ⟨[(cur + 1, cmd)], rfl, by simp⟩
      · simp only [hd, if_false]
        exact ⟨[], by simp, by simp⟩
  | succ fuel ih =>
    intro cur r tr hf
    cases r with
    | ok v => exact ⟨[], by simp [failoverLoop], by simp⟩
    | error e =>
      rw [failoverLoop]
      by_cases hd : e.is_connection_dropped = true
      · simp only [hd, if_true]
        by_cases hN : cur + 1 = N
        · rw [if_pos hN]; exact ⟨[], by simp, by simp⟩
        · rw [if_neg hN]
          by_cases hlt : cur + 1 < pool.length
          · rw [dif_pos hlt]
            obtain ⟨l, hl, hcl⟩ := ih (cur + 1) (run (pool.get ⟨cur + 1, hlt⟩))
              (tr ++ [(cur + 1, cmd)]) (by omega)
            refine ⟨(cur + 1, cmd) :: l, ?_, ?_⟩
            · rw [hl]; simp
            · intro p hp
              rcases List.mem_cons.mp hp with h | h
              · rw [h]
              · exact hcl p h
          · rw [dif_neg hlt]
            exact ⟨[(cur + 1, cmd)], rfl, by simp⟩
      · simp only [hd, if_false]
        exact ⟨[], by simp, by simp⟩

theorem failoverLoop_trace {β : Type} (run : ConnectionManager → Except RedisError β)
    (cmd : RedisCmd) (pool : List ConnectionManager) (N cur : Nat)
    (r : Except RedisError β) (tr : List (Nat × RedisCmd)) :
    ∃ l, (failoverLoop run cmd pool N cur r tr).2.2 = tr ++ l ∧
      ∀ p ∈ l, p.2 = cmd :=
  failoverLoop_trace_aux run cmd pool N (pool.length - cur) cur r tr (Nat.le_refl _)

/-- When the pool length matches `pool_size = N` and the cursor is in range,
every pool index the loop touches stays below `N` and the final cursor stays
at most `N`. -/
theorem failoverLoop_bounds_aux {β : Type} (run : ConnectionManager → Except RedisError β)
    (cmd : RedisCmd) (pool : List ConnectionManager) (N : Nat)
    (hlen : pool.length = N) :
    ∀ (fuel cur : Nat) (r : Except RedisError β) (tr : List (Nat × RedisCmd)),
      N - cur ≤ fuel → cur < N → (∀ p ∈ tr, p.1 < N) →
      (∀ p ∈ (failoverLoop run cmd pool N cur r tr).2.2, p.1 < N) ∧
        (failoverLoop run cmd pool N cur r tr).2.1 ≤ N := by
  intro fuel
  induction fuel with
  | zero => intro cur r tr hf hcur _; omega
  | succ fuel ih =>
    intro cur r tr hf hcur htr
    cases r with
    | ok v => exact ⟨by simpa [failoverLoop] using htr, by simp [failoverLoop]; omega⟩
    | error e =>
      rw [failoverLoop]
      by_cases hd : e.is_connection_dropped = true
      · simp only [hd, if_true]
        by_cases hN : cur + 1 = N
        · rw [if_pos hN]; exact ⟨htr, by simp; omega⟩
        · rw [if_neg hN]
          by_cases hlt : cur + 1 < pool.length
          · rw [dif_pos hlt]
            refine ih (cur + 1) (run (pool.get ⟨cur + 1, hlt⟩))
              (tr ++ [(cur + 1, cmd)]) (by omega) (by omega) ?_
            intro p hp
            rcases List.mem_append.mp hp with h | h
            · exact htr p h
            · simp only [List.mem_singleton] at h
              subst h
              show cur + 1 < N
              omega
          · exact absurd (show cur + 1 < pool.length by omega) hlt
      · simp only [hd, if_false]
        exact ⟨htr, by simp; omega⟩

theorem failoverLoop_bounds {β : Type} (run : ConnectionManager → Except RedisError β)
    (cmd : RedisCmd) (pool : List ConnectionManager) (N cur : Nat)
    (r : Except RedisError β) (tr : List (Nat × RedisCmd))
    (hlen : pool.length = N) (hcur : cur < N) (htr : ∀ p ∈ tr, p.1 < N) :
    (∀ p ∈ (failoverLoop run cmd pool N cur r tr).2.2, p.1 < N) ∧
      (failoverLoop run cmd pool N cur r tr).2.1 ≤ N :=
  failoverLoop_bounds_aux run cmd pool N hlen (N - cur) cur r tr (Nat.le_refl _) hcur htr

/-- The loop from cursor `0`, with the first `k` attempts dropped and attempt
`k` succeeding: the `(k+1)`-st connection's value is returned after exactly the
attempts `0, …, k`. -/
theorem failoverLoop_ok {β : Type} (run : ConnectionManager → Except RedisError β)
    (cmd : RedisCmd) (pool : List ConnectionManager) (N k : Nat) (v : β)
    (r0 : Except RedisError β)
    (hlen : pool.length = N) (hk : k < N)
    (hdrops : ∀ i, i < k → runDropsAt run pool i)
    (hok : run (connAt pool k) = Except.ok v)
    (hr0 : r0 = run (connAt pool 0)) :
    failoverLoop run cmd pool N 0 r0 [(0, cmd)] =
      (Outcome.ok v, k, (List.range' 0 (k + 1)).map (fun i => (i, cmd))) := by
  subst hr0
  rw [failoverLoop_walk run cmd pool N hlen k 0 [(0, cmd)] (by omega)
    (fun i h1 h2 => hdrops i (by omega))]
  rw [show (0 : Nat) + k = k from by omega, hok, failoverLoop]
  simp [List.range'_succ]

/-- The loop from cursor `0` with every one of the `N` attempts dropped:
pool exhaustion after exactly the attempts `0, …, N - 1`. -/
theorem failoverLoop_exhaust {β : Type} (run : ConnectionManager → Except RedisError β)
    (cmd : RedisCmd) (pool : List ConnectionManager) (N : Nat)
    (r0 : Except RedisError β)
    (hlen : pool.length = N) (hN : 1 ≤ N)
    (hdrops : ∀ i, i < N → runDropsAt run pool i)
    (hr0 : r0 = run (connAt pool 0)) :
    failoverLoop run cmd pool N 0 r0 [(0, cmd)] =
      (Outcome.err PoolError.PoolExhaustionWithConnectionDropError, N,
        (List.range' 0 N).map (fun i => (i, cmd))) := by
  subst hr0
  rw [failoverLoop_walk run cmd pool N hlen (N - 1) 0 [(0, cmd)] (by omega)
    (fun i h1 h2 => hdrops i (by omega))]
  obtain ⟨e, he, hdrop⟩ := hdrops (0 + (N - 1)) (by omega)
  rw [he, failoverLoop]
  simp only [hdrop, if_true]
  rw [if_pos (show 0 + (N - 1) + 1 = N by omega)]
  have hN' : N = (N - 1) + 1 := by omega
  rw [show (0 : Nat) + (N - 1) + 1 = N from by omega]
  rw [hN', List.range'_succ]
  simp [show (N - 1) + 1 = N from by omega]

/-- The loop from cursor `0`, with the first `j` attempts dropped and attempt
`j` failing with a non-dropped error: the wrapped error is returned after
exactly the attempts `0, …, j`. -/
theorem failoverLoop_failfast {β : Type} (run : ConnectionManager → Except RedisError β)
    (cmd : RedisCmd) (pool : List ConnectionManager) (N j : Nat) (e : RedisError)
    (r0 : Except RedisError β)
    (hlen : pool.length = N) (hj : j < N)
    (hdrops : ∀ i, i < j → runDropsAt run pool i)
    (herr : run (connAt pool j) = Except.error e)
    (hnd : e.is_connection_dropped = false)
    (hr0 : r0 = run (connAt pool 0)) :
    failoverLoop run cmd pool N 0 r0 [(0, cmd)] =
      (Outcome.err (PoolError.RedisError e), j,
        (List.range' 0 (j + 1)).map (fun i => (i, cmd))) := by
  subst hr0
  rw [failoverLoop_walk run cmd pool N hlen j 0 [(0, cmd)] (by omega)
    (fun i h1 h2 => hdrops i (by omega))]
  rw [show (0 : Nat) + j = j from by omega, herr, failoverLoop]
  simp [hnd, List.range'_succ]

/-- `cached_json` in terms of the failover loop, when the pool is nonempty. -/
theorem cached_json_loop (pool : List ConnectionManager) (N cc0 : Nat) (url : String)
    (h0 : 0 < pool.length) :
    cached_json ⟨pool, N, cc0⟩ url =
      ((failoverLoop (fun c => c.get (md5Hex url)) (RedisCmd.getCmd (md5Hex url))
          pool N 0 ((connAt pool 0).get (md5Hex url))
          [(0, RedisCmd.getCmd (md5Hex url))]).1,
       ⟨pool, N, (failoverLoop (fun c => c.get (md5Hex url)) (RedisCmd.getCmd (md5Hex url))
          pool N 0 ((connAt pool 0).get (md5Hex url))
          [(0, RedisCmd.getCmd (md5Hex url))]).2.1⟩,
       (failoverLoop (fun c => c.get (md5Hex url)) (RedisCmd.getCmd (md5Hex url))
          pool N 0 ((connAt pool 0).get (md5Hex url))
          [(0, RedisCmd.getCmd (md5Hex url))]).2.2) := by
  simp only [cached_json, hash_url]
  rw [dif_pos h0]
  rw [← connAt_eq pool 0 h0]

/-- `cache_results` in terms of the failover loop, when the pool is nonempty. -/
theorem cache_results_loop (pool : List ConnectionManager) (N cc0 : Nat)
    (json url : String) (h0 : 0 < pool.length) :
    cache_results ⟨pool, N, cc0⟩ json url =
      ((failoverLoop (fun c => c.set_ex (md5Hex url) json 60)
          (RedisCmd.setExCmd (md5Hex url) json 60) pool N 0
          ((connAt pool 0).set_ex (md5Hex url) json 60)
          [(0, RedisCmd.setExCmd (md5Hex url) json 60)]).1,
       ⟨pool, N, (failoverLoop (fun c => c.set_ex (md5Hex url) json 60)
          (RedisCmd.setExCmd (md5Hex url) json 60) pool N 0
          ((connAt pool 0).set_ex (md5Hex url) json 60)
          [(0, RedisCmd.setExCmd (md5Hex url) json 60)]).2.1⟩,
       (failoverLoop (fun c => c.set_ex (md5Hex url) json 60)
          (RedisCmd.setExCmd (md5Hex url) json 60) pool N 0
          ((connAt pool 0).set_ex (md5Hex url) json 60)
          [(0, RedisCmd.setExCmd (md5Hex url) json 60)]).2.2) := by
  simp only [cache_results, hash_url]
  rw [dif_pos h0]
  rw [← connAt_eq pool 0 h0]

/-- `cached_json` on the empty pool: the out-of-bounds index `0` panics after
recording the one indexing attempt. -/
theorem cached_json_empty (pool : List ConnectionManager) (N cc0 : Nat) (url : String)
    (h0 : ¬ 0 < pool.length) :
    cached_json ⟨pool, N, cc0⟩ url =
      (Outcome.crash, ⟨pool, N, 0⟩, [(0, RedisCmd.getCmd (md5Hex url))]) := by
  simp only [cached_json, hash_url]
  rw [dif_neg h0]

/-- `cache_results` on the empty pool: the out-of-bounds index `0` panics after
recording the one indexing attempt. -/
theorem cache_results_empty (pool : List ConnectionManager) (N cc0 : Nat)
    (json url : String) (h0 : ¬ 0 < pool.length) :
    cache_results ⟨pool, N, cc0⟩ json url =
      (Outcome.crash, ⟨pool, N, 0⟩, [(0, RedisCmd.setExCmd (md5Hex url) json 60)]) := by
  simp only [cache_results, hash_url]
  rw [dif_neg h0]

theorem cached_json_fst_eq (pool : List ConnectionManager) (N cc0 : Nat) (url : String)
    (h0 : 0 < pool.length) :
    (cached_json ⟨pool, N, cc0⟩ url).1 =
      (failoverLoop (fun c => c.get (md5Hex url)) (RedisCmd.getCmd (md5Hex url)) pool N 0
        ((connAt pool 0).get (md5Hex url)) [(0, RedisCmd.getCmd (md5Hex url))]).1 := by
  rw [cached_json_loop pool N cc0 url h0]

theorem cached_json_cc_eq (pool : List ConnectionManager) (N cc0 : Nat) (url : String)
    (h0 : 0 < pool.length) :
    (cached_json ⟨pool, N, cc0⟩ url).2.1.current_connection =
      (failoverLoop (fun c => c.get (md5Hex url)) (RedisCmd.getCmd (md5Hex url)) pool N 0
        ((connAt pool 0).get (md5Hex url)) [(0, RedisCmd.getCmd (md5Hex url))]).2.1 := by
  rw [cached_json_loop pool N cc0 url h0]

theorem cached_json_trace_eq (pool : List ConnectionManager) (N cc0 : Nat) (url : String)
    (h0 : 0 < pool.length) :
    (cached_json ⟨pool, N, cc0⟩ url).2.2 =
      (failoverLoop (fun c => c.get (md5Hex url)) (RedisCmd.getCmd (md5Hex url)) pool N 0
        ((connAt pool 0).get (md5Hex url)) [(0, RedisCmd.getCmd (md5Hex url))]).2.2 := by
  rw [cached_json_loop pool N cc0 url h0]

theorem cache_results_fst_eq (pool : List ConnectionManager) (N cc0 : Nat)
    (json url : String) (h0 : 0 < pool.length) :
    (cache_results ⟨pool, N, cc0⟩ json url).1 =
      (failoverLoop (fun c => c.set_ex (md5Hex url) json 60)
        (RedisCmd.setExCmd (md5Hex url) json 60) pool N 0
        ((connAt pool 0).set_ex (md5Hex url) json 60)
        [(0, RedisCmd.setExCmd (md5Hex url) json 60)]).1 := by
  rw [cache_results_loop pool N cc0 json url h0]

theorem cache_results_cc_eq (pool : List ConnectionManager) (N cc0 : Nat)
    (json url : String) (h0 : 0 < pool.length) :
    (cache_results ⟨pool, N, cc0⟩ json url).2.1.current_connection =
      (failoverLoop (fun c => c.set_ex (md5Hex url) json 60)
        (RedisCmd.setExCmd (md5Hex url) json 60) pool N 0
        ((connAt pool 0).set_ex (md5Hex url) json 60)
        [(0, RedisCmd.setExCmd (md5Hex url) json 60)]).2.1 := by
  rw [cache_results_loop pool N cc0 json url h0]

theorem cache_results_trace_eq (pool : List ConnectionManager) (N cc0 : Nat)
    (json url : String) (h0 : 0 < pool.length) :
    (cache_results ⟨pool, N, cc0⟩ json url).2.2 =
      (failoverLoop (fun c => c.set_ex (md5Hex url) json 60)
        (RedisCmd.setExCmd (md5Hex url) json 60) pool N 0
        ((connAt pool 0).set_ex (md5Hex url) json 60)
        [(0, RedisCmd.setExCmd (md5Hex url) json 60)]).2.2 := by
  rw [cache_results_loop pool N cc0 json url h0]

/-- The trace of `cached_json` always starts with the attempt `(0, GET key)`. -/
theorem cached_json_trace_shape (pool : List ConnectionManager) (N cc0 : Nat)
    (url : String) :
    ∃ l, (cached_json ⟨pool, N, cc0⟩ url).2.2 =
      (0, RedisCmd.getCmd (md5Hex url)) :: l ∧
      ∀ p ∈ l, p.2 = RedisCmd.getCmd (md5Hex url) := by
  by_cases h0 : 0 < pool.length
  · obtain ⟨l, hl, hcl⟩ := failoverLoop_trace (fun c => c.get (md5Hex url))
      (RedisCmd.getCmd (md5Hex url)) pool N 0 ((connAt pool 0).get (md5Hex url))
      [(0, RedisCmd.getCmd (md5Hex url))]
    refine ⟨l, ?_, hcl⟩
    rw [cached_json_trace_eq pool N cc0 url h0, hl]
    rfl
  · exact ⟨[], by rw [cached_json_empty pool N cc0 url h0], by simp⟩

/-- The trace of `cache_results` always starts with `(0, SET key json EX 60)`. -/
theorem cache_results_trace_shape (pool : List ConnectionManager) (N cc0 : Nat)
    (json url : String) :
    ∃ l, (cache_results ⟨pool, N, cc0⟩ json url).2.2 =
      (0, RedisCmd.setExCmd (md5Hex url) json 60) :: l ∧
      ∀ p ∈ l, p.2 = RedisCmd.setExCmd (md5Hex url) json 60 := by
  by_cases h0 : 0 < pool.length
  · obtain ⟨l, hl, hcl⟩ := failoverLoop_trace (fun c => c.set_ex (md5Hex url) json 60)
      (RedisCmd.setExCmd (md5Hex url) json 60) pool N 0
      ((connAt pool 0).set_ex (md5Hex url) json 60)
      [(0, RedisCmd.setExCmd (md5Hex url) json 60)]
    refine ⟨l, ?_, hcl⟩
    rw [cache_results_trace_eq pool N cc0 json url h0, hl]
    rfl
  · exact ⟨[], by rw [cache_results_empty pool N cc0 json url h0], by simp⟩

/-- Every command `cached_json` issues carries the hashed url as key. -/
theorem cached_json_cmds (pool : List ConnectionManager) (N cc0 : Nat) (url : String) :
    ∀ p ∈ (cached_json ⟨pool, N, cc0⟩ url).2.2, p.2 = RedisCmd.getCmd (md5Hex url) := by
  obtain ⟨l, hl, hcl⟩ := cached_json_trace_shape pool N cc0 url
  intro p hp
  rw [hl] at hp
  rcases List.mem_cons.mp hp with h | h
  · rw [h]
  · exact hcl p h

/-- Every command `cache_results` issues is `SET hashed-url json EX 60`. -/
theorem cache_results_cmds (pool : List ConnectionManager) (N cc0 : Nat)
    (json url : String) :
    ∀ p ∈ (cache_results ⟨pool, N, cc0⟩ json url).2.2,
      p.2 = RedisCmd.setExCmd (md5Hex url) json 60 := by
  obtain ⟨l, hl, hcl⟩ := cache_results_trace_shape pool N cc0 json url
  intro p hp
  rw [hl] at hp
  rcases List.mem_cons.mp hp with h | h
  · rw [h]
  · exact hcl p h

theorem bytesToHexChars_length :
    ∀ bs : List Nat, (bytesToHexChars bs).length = 2 * bs.length
  | [] => rfl
  | b :: rest => by
    simp only [bytesToHexChars, List.length_cons]
    rw [bytesToHexChars_length rest]
    omega

theorem md5Bytes_length (msg : List Nat) : (md5Bytes msg).length = 16 := by
  simp [md5Bytes, leWord]

theorem md5Hex_length (s : String) : (md5Hex s).length = 32 := by
  have h1 : (md5Hex s).length =
      (bytesToHexChars (md5Bytes (s.toUTF8.toList.map UInt8.toNat))).length := rfl
  rw [h1, bytesToHexChars_length, md5Bytes_length]

theorem extractAll_mem :
    ∀ (cs : List ResultContainer) (rs : List SearchResult),
      extractAll cs = some rs → ∀ r ∈ rs, ∃ c ∈ cs, extractResult c = some r := by
  intro cs
  induction cs with
  | nil =>
    intro rs h r hr
    simp only [extractAll, Option.some.injEq] at h
    subst h
    simp at hr
  | cons c rest ih =>
    intro rs h r hr
    simp only [extractAll] at h
    cases hc : extractResult c with
    | none => rw [hc] at h; simp at h
    | some r0 =>
      cases hrest : extractAll rest with
      | none => rw [hc, hrest] at h; simp at h
      | some rs0 =>
        rw [hc, hrest] at h
        simp only [Option.some.injEq] at h
        subst h
        rcases List.mem_cons.mp hr with h | h
        · exact ⟨c, List.mem_cons_self c rest, by rw [hc, h]⟩
        · obtain ⟨c', hc', he'⟩ := ih rs0 hrest r h
          exact ⟨c', List.mem_cons_of_mem c hc', he'⟩

theorem extractAll_eq_none :
    ∀ (cs : List ResultContainer) (c : ResultContainer), c ∈ cs →
      extractResult c = none → extractAll cs = none := by
  intro cs
  induction cs with
  | nil => intro c hc; simp at hc
  | cons c0 rest ih =>
    intro c hc hnone
    rcases List.mem_cons.mp hc with h | h
    · subst h
      simp only [extractAll, hnone]
    · simp only [extractAll, ih c h hnone]
      cases extractResult c0 <;> rfl

theorem mem_insertKV (m : List (String × SearchResult)) (k : String) (v : SearchResult) :
    ∀ p ∈ insertKV m k v, p ∈ m ∨ p = (k, v) := by
  intro p hp
  simp only [insertKV] at hp
  by_cases hany : m.any (fun q => q.1 = k) = true
  · rw [if_pos hany] at hp
    obtain ⟨q, hq, hfq⟩ := List.mem_map.mp hp
    by_cases hqk : q.1 = k
    · right; rw [if_pos hqk] at hfq; exact hfq.symm
    · left; rw [if_neg hqk] at hfq; rw [← hfq]; exact hq
  · rw [if_neg hany] at hp
    rcases List.mem_append.mp hp with h | h
    · left; exact h
    · right; simpa using h

theorem buildMap_inv (S : SearchResult → Prop) :
    ∀ (rs : List SearchResult) (m : List (String × SearchResult)),
      (∀ p ∈ m, p.1 = p.2.url ∧ S p.2) → (∀ r ∈ rs, S r) →
      ∀ p ∈ rs.foldl (fun acc r => insertKV acc r.url r) m, p.1 = p.2.url ∧ S p.2 := by
  intro rs
  induction rs with
  | nil => intro m hm _ p hp; exact hm p hp
  | cons r rest ih =>
    intro m hm hrs p hp
    rw [List.foldl_cons] at hp
    refine ih (insertKV m r.url r) ?_ (fun x hx => hrs x (List.mem_cons_of_mem _ hx)) p hp
    intro q hq
    rcases mem_insertKV m r.url r q hq with h | h
    · exact hm q h
    · rw [h]
      exact ⟨rfl, hrs r (List.mem_cons_self _ _)⟩

theorem extractResult_some (c : ResultContainer) (r : SearchResult)
    (h : extractResult c = some r) :
    r.engines = ["duckduckgo"] ∧ ∃ t u d, c.titleHtml = some t ∧ c.urlHtml = some u ∧
      c.snippetHtml = some d ∧ r.title = trimStr t ∧ r.url = "https://" ++ trimStr u ∧
      r.description = trimStr d := by
  obtain ⟨t0, u0, s0⟩ := c
  cases t0 with
  | none => simp [extractResult] at h
  | some t =>
    cases u0 with
    | none => simp [extractResult] at h
    | some u =>
      cases s0 with
      | none => simp [extractResult] at h
      | some d =>
        simp only [extractResult, Option.some.injEq] at h
        subst h
        exact ⟨rfl, t, u, d, rfl, rfl, rfl, rfl, rfl, rfl⟩

theorem foldl_setEx (k v : String) (t : Nat) :
    ∀ (cmds : List RedisCmd) (st : Store), cmds ≠ [] →
      (∀ c ∈ cmds, c = RedisCmd.setExCmd k v t) →
      (cmds.foldl execStore st) k = some (v, t) := by
  intro cmds
  induction cmds with
  | nil => intro st h _; exact absurd rfl h
  | cons c cs ih =>
    intro st _ hall
    have hc : c = RedisCmd.setExCmd k v t := hall c (List.mem_cons_self _ _)
    subst hc
    cases cs with
    | nil => simp [List.foldl, execStore]
    | cons c2 cs2 =>
      rw [List.foldl_cons]
      exact ih (execStore st _) (by simp) (fun x hx => hall x (List.mem_cons_of_mem _ hx))

/-! ### Claims C1–C10. -/

/-- C1 counterexample: on a pool of size `N = 0` the premise "all `N`
connections return connection-dropped errors" holds vacuously, yet neither
operation fails with `PoolExhausted` after `0` attempts — the first statement
`self.connection_pool[self.current_connection]` indexes the empty pool and
panics, after one indexing attempt. -/
theorem c1_failover_bound_counterexample :
    (cached_json ⟨[], 0, 3⟩ "x").1 = Outcome.crash ∧
    (cached_json ⟨[], 0, 3⟩ "x").1 ≠
      Outcome.err PoolError.PoolExhaustionWithConnectionDropError ∧
    (cached_json ⟨[], 0, 3⟩ "x").2.2.length = 1 ∧
    (cache_results ⟨[], 0, 3⟩ "j" "x").1 = Outcome.crash := by
  refine ⟨rfl, ?_, rfl, rfl⟩
  intro h
  rw [show (cached_json ⟨[], 0, 3⟩ "x").1 = Outcome.crash from rfl] at h
  exact Outcome.noConfusion h

/-- C1 (amended with `1 ≤ N`; for `N = 0` the code panics instead, see the
counterexample): for each cache operation on a pool of size `N ≥ 1`, if the
first `k < N` connections return connection-dropped errors and the `(k+1)`-th
attempt succeeds, the operation succeeds with the `(k+1)`-th connection's
result after exactly `k + 1` attempts; if all `N` connections return
connection-dropped errors, the operation fails with
`PoolError::PoolExhaustionWithConnectionDropError` after exactly `N`
attempts. -/
theorem c1_failover_bound (pool : List ConnectionManager) (N cc0 k : Nat)
    (url json v : String) (hlen : pool.length = N) (hN : 1 ≤ N) (hk : k < N) :
    ((∀ i, i < k → runDropsAt (fun c => c.get (hash_url ⟨pool, N, cc0⟩ url)) pool i) →
      (connAt pool k).get (hash_url ⟨pool, N, cc0⟩ url) = Except.ok v →
      (cached_json ⟨pool, N, cc0⟩ url).1 = Outcome.ok v ∧
        (cached_json ⟨pool, N, cc0⟩ url).2.2.length = k + 1) ∧
    ((∀ i, i < N → runDropsAt (fun c => c.get (hash_url ⟨pool, N, cc0⟩ url)) pool i) →
      (cached_json ⟨pool, N, cc0⟩ url).1 =
          Outcome.err PoolError.PoolExhaustionWithConnectionDropError ∧
        (cached_json ⟨pool, N, cc0⟩ url).2.2.length = N) ∧
    ((∀ i, i < k →
        runDropsAt (fun c => c.set_ex (hash_url ⟨pool, N, cc0⟩ url) json 60) pool i) →
      (connAt pool k).set_ex (hash_url ⟨pool, N, cc0⟩ url) json 60 = Except.ok () →
      (cache_results ⟨pool, N, cc0⟩ json url).1 = Outcome.ok () ∧
        (cache_results ⟨pool, N, cc0⟩ json url).2.2.length = k + 1) ∧
    ((∀ i, i < N →
        runDropsAt (fun c => c.set_ex (hash_url ⟨pool, N, cc0⟩ url) json 60) pool i) →
      (cache_results ⟨pool, N, cc0⟩ json url).1 =
          Outcome.err PoolError.PoolExhaustionWithConnectionDropError ∧
        (cache_results ⟨pool, N, cc0⟩ json url).2.2.length = N) := by
  have h0 : 0 < pool.length := by omega
  refine ⟨fun hdrops hok => ?_, fun hdrops => ?_, fun hdrops hok => ?_, fun hdrops => ?_⟩
  · have hcall := failoverLoop_ok (fun c => c.get (md5Hex url))
      (RedisCmd.getCmd (md5Hex url)) pool N k v
      ((connAt pool 0).get (md5Hex url)) hlen hk hdrops hok rfl
    refine ⟨?_, ?_⟩
    · rw [cached_json_fst_eq pool N cc0 url h0, hcall]
    · rw [cached_json_trace_eq pool N cc0 url h0, hcall]
      simp
  · have hcall := failoverLoop_exhaust (fun c => c.get (md5Hex url))
      (RedisCmd.getCmd (md5Hex url)) pool N
      ((connAt pool 0).get (md5Hex url)) hlen hN hdrops rfl
    refine ⟨?_, ?_⟩
    · rw [cached_json_fst_eq pool N cc0 url h0, hcall]
    · rw [cached_json_trace_eq pool N cc0 url h0, hcall]
      simp
  · have hcall := failoverLoop_ok (fun c => c.set_ex (md5Hex url) json 60)
      (RedisCmd.setExCmd (md5Hex url) json 60) pool N k ()
      ((connAt pool 0).set_ex (md5Hex url) json 60) hlen hk hdrops hok rfl
    refine ⟨?_, ?_⟩
    · rw [cache_results_fst_eq pool N cc0 json url h0, hcall]
    · rw [cache_results_trace_eq pool N cc0 json url h0, hcall]
      simp
  · have hcall := failoverLoop_exhaust (fun c => c.set_ex (md5Hex url) json 60)
      (RedisCmd.setExCmd (md5Hex url) json 60) pool N
      ((connAt pool 0).set_ex (md5Hex url) json 60) hlen hN hdrops rfl
    refine ⟨?_, ?_⟩
    · rw [cache_results_fst_eq pool N cc0 json url h0, hcall]
    · rw [cache_results_trace_eq pool N cc0 json url h0, hcall]
      simp

/-- C1 witness: a pool of two slots where slot 0 is dropped and slot 1 is
healthy succeeds with slot 1's value after 2 attempts; a pool of two dropped
slots exhausts. -/
theorem c1_failover_bound_witness :
    (cached_json ⟨[connDropGone, connGood "v"], 2, 0⟩ "u").1 = Outcome.ok "v" ∧
    (cached_json ⟨[connDropGone, connGood "v"], 2, 0⟩ "u").2.2.length = 2 ∧
    (cached_json ⟨[connDropGone, connDropGone], 2, 0⟩ "u").1 =
      Outcome.err PoolError.PoolExhaustionWithConnectionDropError ∧
    (cached_json ⟨[connDropGone, connDropGone], 2, 0⟩ "u").2.2.length = 2 ∧
    (cache_results ⟨[connDropGone, connGood "v"], 2, 0⟩ "j" "u").1 = Outcome.ok () ∧
    (cache_results ⟨[connDropGone, connDropGone], 2, 0⟩ "j" "u").1 =
      Outcome.err PoolError.PoolExhaustionWithConnectionDropError := by
  have hA := c1_failover_bound [connDropGone, connGood "v"] 2 0 1 "u" "j" "v"
    rfl (by omega) (by omega)
  have hB := c1_failover_bound [connDropGone, connDropGone] 2 0 0 "u" "j" "v"
    rfl (by omega) (by omega)
  have hdrop1g : ∀ i, i < 1 →
      runDropsAt (fun c => c.get (hash_url ⟨[connDropGone, connGood "v"], 2, 0⟩ "u"))
        [connDropGone, connGood "v"] i := by
    intro i hi
    have hi0 : i = 0 := by omega
    subst hi0
    exact ⟨⟨true, 1⟩, rfl, rfl⟩
  have hdrop1s : ∀ i, i < 1 →
      runDropsAt (fun c =>
          c.set_ex (hash_url ⟨[connDropGone, connGood "v"], 2, 0⟩ "u") "j" 60)
        [connDropGone, connGood "v"] i := by
    intro i hi
    have hi0 : i = 0 := by omega
    subst hi0
    exact ⟨⟨true, 1⟩, rfl, rfl⟩
  have hdrop2g : ∀ i, i < 2 →
      runDropsAt (fun c => c.get (hash_url ⟨[connDropGone, connDropGone], 2, 0⟩ "u"))
        [connDropGone, connDropGone] i := by
    intro i hi
    match i, hi with
    | 0, _ => exact ⟨⟨true, 1⟩, rfl, rfl⟩
    | 1, _ => exact ⟨⟨true, 1⟩, rfl, rfl⟩
  have hdrop2s : ∀ i, i < 2 →
      runDropsAt (fun c =>
          c.set_ex (hash_url ⟨[connDropGone, connDropGone], 2, 0⟩ "u") "j" 60)
        [connDropGone, connDropGone] i := by
    intro i hi
    match i, hi with
    | 0, _ => exact ⟨⟨true, 1⟩, rfl, rfl⟩
    | 1, _ => exact ⟨⟨true, 1⟩, rfl, rfl⟩
  have h1 := hA.1 hdrop1g rfl
  have h2 := hB.2.1 hdrop2g
  have h3 := (hA.2.2.1) hdrop1s rfl
  have h4 := (hB.2.2.2) hdrop2s
  exact ⟨h1.1, h1.2, h2.1, h2.2, h3.1, h4.1⟩

/-- C2 counterexample: at the valid `u32` page `4294967295` the mathematical
offset claimed, `(floor(page/2) + page mod 2) * 30 = 64424509440`, exceeds
`2^32`; the 32-bit arithmetic wraps, and the constructed URL carries the
offset parameters `s=0` and `dc=1` instead of the claimed value. -/
theorem c2_pagination_counterexample :
    paramValueAfter (duckduckgoUrl "q" 4294967295) "&s=" = some "0" ∧
    paramValueAfter (duckduckgoUrl "q" 4294967295) "&dc=" = some "1" ∧
    (4294967295 / 2 + 4294967295 % 2) * 30 = 64424509440 ∧
    toString ((4294967295 / 2 + 4294967295 % 2) * 30) ≠ "0" := by
  refine ⟨rfl, rfl, by norm_num, by decide⟩

/-- C2 (amended: the offsets are computed in `u32` arithmetic, i.e. modulo
`2^32`; within `u32` range the wrap only matters for `page ≥ 143165576`): for
`page` 0 or 1 the URL carries empty offset parameters; for `page ≥ 2` the
first offset parameter is `(floor(page/2) + page mod 2) * 30 mod 2^32` and the
second is that value plus 1 (mod `2^32`); in particular for pages 0–5 the
offset parameters are (empty), (empty), (30,31), (60,61), (60,61), (90,91). -/
theorem c2_pagination (q : String) (p : Nat) :
    ((p = 0 ∨ p = 1) → duckduckgoUrl q p =
      "https://html.duckduckgo.com/html/?q=" ++ q ++ "&s=&dc=&v=1&o=json&api=/d.js") ∧
    (2 ≤ p → duckduckgoUrl q p =
      "https://duckduckgo.com/html/?q=" ++ q ++ "&s=" ++
        toString ((p / 2 + p % 2) * 30 % 2 ^ 32) ++ "&dc=" ++
        toString (((p / 2 + p % 2) * 30 % 2 ^ 32 + 1) % 2 ^ 32) ++
        "&v=1&o=json&api=/d.js") ∧
    paramValueAfter (duckduckgoUrl "rust" 0) "&s=" = some "" ∧
    paramValueAfter (duckduckgoUrl "rust" 0) "&dc=" = some "" ∧
    paramValueAfter (duckduckgoUrl "rust" 1) "&s=" = some "" ∧
    paramValueAfter (duckduckgoUrl "rust" 1) "&dc=" = some "" ∧
    paramValueAfter (duckduckgoUrl "rust" 2) "&s=" = some "30" ∧
    paramValueAfter (duckduckgoUrl "rust" 2) "&dc=" = some "31" ∧
    paramValueAfter (duckduckgoUrl "rust" 3) "&s=" = some "60" ∧
    paramValueAfter (duckduckgoUrl "rust" 3) "&dc=" = some "61" ∧
    paramValueAfter (duckduckgoUrl "rust" 4) "&s=" = some "60" ∧
    paramValueAfter (duckduckgoUrl "rust" 4) "&dc=" = some "61" ∧
    paramValueAfter (duckduckgoUrl "rust" 5) "&s=" = some "90" ∧
    paramValueAfter (duckduckgoUrl "rust" 5) "&dc=" = some "91" := by
  refine ⟨?_, ?_, rfl, rfl, rfl, rfl, rfl, rfl, rfl, rfl, rfl, rfl, rfl, rfl⟩
  · rintro (rfl | rfl) <;> rfl
  · intro hp
    obtain ⟨n, rfl⟩ : ∃ n, p = n + 2 := ⟨p - 2, by omega⟩
    rfl

/-- C2 witness: the two implications of the pagination theorem discharged at
pages 0 and 5. -/
theorem c2_pagination_witness :
    duckduckgoUrl "rust" 0 =
      "https://html.duckduckgo.com/html/?q=" ++ "rust" ++ "&s=&dc=&v=1&o=json&api=/d.js" ∧
    duckduckgoUrl "rust" 5 =
      "https://duckduckgo.com/html/?q=" ++ "rust" ++ "&s=" ++
        toString ((5 / 2 + 5 % 2) * 30 % 2 ^ 32) ++ "&dc=" ++
        toString (((5 / 2 + 5 % 2) * 30 % 2 ^ 32 + 1) % 2 ^ 32) ++
        "&v=1&o=json&api=/d.js" :=
  ⟨(c2_pagination "rust" 0).1 (Or.inl rfl), (c2_pagination "rust" 5).2.1 (by omega)⟩

/-- C3 counterexample: a document without the no-results marker whose single
result container lacks the title sub-element makes the whole extraction
panic (`unwrap()` on `None`, modelled by `none`) — the fetch neither reports
the malformed result nor skips the container. -/
theorem c3_no_panic_counterexample :
    duckduckgoExtract ⟨false, [⟨none, some "example.com", some "desc"⟩]⟩ = none :=
  rfl

/-- C3 (amended): any result container lacking one of the three required
sub-elements makes the whole fetch panic — the reference code calls
`unwrap()` on each sub-element, aborting the entire operation rather than
reporting or skipping the malformed container. -/
theorem c3_malformed_aborts (doc : HtmlDoc) (c : ResultContainer)
    (hnr : doc.no_results = false) (hc : c ∈ doc.containers)
    (hmiss : c.titleHtml = none ∨ c.urlHtml = none ∨ c.snippetHtml = none) :
    duckduckgoExtract doc = none := by
  have hnone : extractResult c = none := by
    obtain ⟨t0, u0, s0⟩ := c
    rcases t0 with _ | t <;> rcases u0 with _ | u <;> rcases s0 with _ | s <;>
      first
        | rfl
        | (exfalso; rcases hmiss with h | h | h <;> simp at h)
  rw [duckduckgoExtract]
  rw [if_neg (by rw [hnr]; simp)]
  rw [extractAll_eq_none doc.containers c hc hnone]

/-- C3 witness: the panic theorem discharged on a concrete document whose
container lacks the displayed-URL sub-element. -/
theorem c3_malformed_aborts_witness :
    duckduckgoExtract ⟨false, [⟨some "t", none, some "d"⟩]⟩ = none :=
  c3_malformed_aborts ⟨false, [⟨some "t", none, some "d"⟩]⟩ ⟨some "t", none, some "d"⟩
    rfl (List.mem_singleton.mpr rfl) (Or.inr (Or.inl rfl))

/-- C4 counterexample: with `pool_size = 0` the cursor value `0` equals
`pool_size` and is nevertheless used to index the pool — both operations
record the indexing attempt at index `0 = pool_size` and panic. -/
theorem c4_cursor_bounds_counterexample :
    (cached_json ⟨[], 0, 0⟩ "u").2.2.map Prod.fst = [0] ∧
    (cached_json ⟨[], 0, 0⟩ "u").1 = Outcome.crash ∧
    (cache_results ⟨[], 0, 0⟩ "j" "u").2.2.map Prod.fst = [0] ∧
    (cache_results ⟨[], 0, 0⟩ "j" "u").1 = Outcome.crash :=
  ⟨rfl, rfl, rfl, rfl⟩

/-- C4 (amended with `1 ≤ pool_size`; for `pool_size = 0` the initial attempt
does index the pool at `0 = pool_size`, see the counterexample): for both
operations on a pool of size `pool_size ≥ 1`, the cursor is reset so that the
first attempt indexes slot `0`, every index used to access the pool is
strictly below `pool_size`, and the final cursor is at most `pool_size`. -/
theorem c4_cursor_bounds (pool : List ConnectionManager) (N cc0 : Nat)
    (url json : String) (hlen : pool.length = N) (hN : 1 ≤ N) :
    (cached_json ⟨pool, N, cc0⟩ url).2.2.head?.map Prod.fst = some 0 ∧
    (∀ p ∈ (cached_json ⟨pool, N, cc0⟩ url).2.2, p.1 < N) ∧
    (cached_json ⟨pool, N, cc0⟩ url).2.1.current_connection ≤ N ∧
    (cache_results ⟨pool, N, cc0⟩ json url).2.2.head?.map Prod.fst = some 0 ∧
    (∀ p ∈ (cache_results ⟨pool, N, cc0⟩ json url).2.2, p.1 < N) ∧
    (cache_results ⟨pool, N, cc0⟩ json url).2.1.current_connection ≤ N := by
  have h0 : 0 < pool.length := by omega
  have htr1 : ∀ p ∈ [((0 : Nat), RedisCmd.getCmd (md5Hex url))],
      (p : Nat × RedisCmd).1 < N := by
    intro p hp
    simp only [List.mem_singleton] at hp
    subst hp
    show 0 < N
    omega
  have hb1 := failoverLoop_bounds (fun c => c.get (md5Hex url))
    (RedisCmd.getCmd (md5Hex url)) pool N 0 ((connAt pool 0).get (md5Hex url))
    [(0, RedisCmd.getCmd (md5Hex url))] hlen (by omega) htr1
  have htr2 : ∀ p ∈ [((0 : Nat), RedisCmd.setExCmd (md5Hex url) json 60)],
      (p : Nat × RedisCmd).1 < N := by
    intro p hp
    simp only [List.mem_singleton] at hp
    subst hp
    show 0 < N
    omega
  have hb2 := failoverLoop_bounds (fun c => c.set_ex (md5Hex url) json 60)
    (RedisCmd.setExCmd (md5Hex url) json 60) pool N 0
    ((connAt pool 0).set_ex (md5Hex url) json 60)
    [(0, RedisCmd.setExCmd (md5Hex url) json 60)] hlen (by omega) htr2
  obtain ⟨l1, hl1, _⟩ := cached_json_trace_shape pool N cc0 url
  obtain ⟨l2, hl2, _⟩ := cache_results_trace_shape pool N cc0 json url
  refine ⟨?_, ?_, ?_, ?_, ?_, ?_⟩
  · rw [hl1]; rfl
  · rw [cached_json_trace_eq pool N cc0 url h0]; exact hb1.1
  · rw [cached_json_cc_eq pool N cc0 url h0]; exact hb1.2
  · rw [hl2]; rfl
  · rw [cache_results_trace_eq pool N cc0 json url h0]; exact hb2.1
  · rw [cache_results_cc_eq pool N cc0 json url h0]; exact hb2.2

/-- C4 witness: the bounds theorem discharged on a one-slot pool with a stale
cursor value. -/
theorem c4_cursor_bounds_witness :
    (cached_json ⟨[connGood "v"], 1, 5⟩ "u").2.2.head?.map Prod.fst = some 0 ∧
    (cached_json ⟨[connGood "v"], 1, 5⟩ "u").2.1.current_connection ≤ 1 ∧
    (cache_results ⟨[connGood "v"], 1, 5⟩ "j" "u").2.1.current_connection ≤ 1 := by
  have h := c4_cursor_bounds [connGood "v"] 1 5 "u" "j" rfl (by omega)
  exact ⟨h.1, h.2.2.1, h.2.2.2.2.2⟩

/-- C5: for each cache operation, if the attempts before position `j` return
connection-dropped errors and the attempt at position `j` returns an error
that is not connection-dropped, the operation fails immediately with
`PoolError::RedisError` wrapping that error; the attempts made are exactly
those at indices `0, …, j` — no further connection in the pool is touched. -/
theorem c5_failfast (pool : List ConnectionManager) (N cc0 j : Nat)
    (url json : String) (e : RedisError)
    (hlen : pool.length = N) (hj : j < N)
    (hnd : e.is_connection_dropped = false) :
    ((∀ i, i < j → runDropsAt (fun c => c.get (hash_url ⟨pool, N, cc0⟩ url)) pool i) →
      (connAt pool j).get (hash_url ⟨pool, N, cc0⟩ url) = Except.error e →
      (cached_json ⟨pool, N, cc0⟩ url).1 = Outcome.err (PoolError.RedisError e) ∧
        (cached_json ⟨pool, N, cc0⟩ url).2.2.map Prod.fst = List.range' 0 (j + 1)) ∧
    ((∀ i, i < j →
        runDropsAt (fun c => c.set_ex (hash_url ⟨pool, N, cc0⟩ url) json 60) pool i) →
      (connAt pool j).set_ex (hash_url ⟨pool, N, cc0⟩ url) json 60 = Except.error e →
      (cache_results ⟨pool, N, cc0⟩ json url).1 = Outcome.err (PoolError.RedisError e) ∧
        (cache_results ⟨pool, N, cc0⟩ json url).2.2.map Prod.fst =
          List.range' 0 (j + 1)) := by
  have h0 : 0 < pool.length := by omega
  refine ⟨fun hdrops herr => ?_, fun hdrops herr => ?_⟩
  · have hcall := failoverLoop_failfast (fun c => c.get (md5Hex url))
      (RedisCmd.getCmd (md5Hex url)) pool N j e
      ((connAt pool 0).get (md5Hex url)) hlen hj hdrops herr hnd rfl
    refine ⟨?_, ?_⟩
    · rw [cached_json_fst_eq pool N cc0 url h0, hcall]
    · rw [cached_json_trace_eq pool N cc0 url h0, hcall]
      simp [List.map_map, Function.comp_def]
  · have hcall := failoverLoop_failfast (fun c => c.set_ex (md5Hex url) json 60)
      (RedisCmd.setExCmd (md5Hex url) json 60) pool N j e
      ((connAt pool 0).set_ex (md5Hex url) json 60) hlen hj hdrops herr hnd rfl
    refine ⟨?_, ?_⟩
    · rw [cache_results_fst_eq pool N cc0 json url h0, hcall]
    · rw [cache_results_trace_eq pool N cc0 json url h0, hcall]
      simp [List.map_map, Function.comp_def]

/-- C5 witness: a protocol-level error on the first slot of a two-slot pool
fails both operations immediately, with only index 0 touched. -/
theorem c5_failfast_witness :
    (cached_json ⟨[connProto, connGood "v"], 2, 0⟩ "u").1 =
      Outcome.err (PoolError.RedisError ⟨false, 2⟩) ∧
    (cached_json ⟨[connProto, connGood "v"], 2, 0⟩ "u").2.2.map Prod.fst =
      List.range' 0 1 ∧
    (cache_results ⟨[connProto, connGood "v"], 2, 0⟩ "j" "u").1 =
      Outcome.err (PoolError.RedisError ⟨false, 2⟩) := by
  have h := c5_failfast [connProto, connGood "v"] 2 0 0 "u" "j" ⟨false, 2⟩
    rfl (by omega) rfl
  have h1 := h.1 (fun i hi => absurd hi (by omega)) rfl
  have h2 := h.2 (fun i hi => absurd hi (by omega)) rfl
  exact ⟨h1.1, h1.2, h2.1⟩

/-- C6 counterexample: for a displayed-URL sub-element with inner text
beginning in whitespace, the code produces the trim-then-prefix value
`https://example.com`, not the claimed prefix-then-trim value
`https:// example.com`. -/
theorem c6_extraction_counterexample :
    extractResult ⟨some "t", some " example.com", some "d"⟩ =
      some ⟨"t", "https://example.com", "d", ["duckduckgo"]⟩ ∧
    trimStr ("https://" ++ " example.com") = "https:// example.com" ∧
    ("https://example.com" : String) ≠ "https:// example.com" := by
  refine ⟨rfl, rfl, by decide⟩

/-- C6 (amended: the displayed URL's inner text is trimmed first and then
prefixed with the fixed scheme, not prefixed before being trimmed): every
extracted `SearchResult` has title and description equal to the trimmed inner
text of their sub-elements, url equal to `https://` prepended to the trimmed
displayed-URL text, engines `["duckduckgo"]`, and is keyed in the returned
mapping by its url. -/
theorem c6_extraction (c : ResultContainer) (t u d : String) (doc : HtmlDoc)
    (m : List (String × SearchResult)) :
    (c.titleHtml = some t → c.urlHtml = some u → c.snippetHtml = some d →
      extractResult c =
        some ⟨trimStr t, "https://" ++ trimStr u, trimStr d, ["duckduckgo"]⟩) ∧
    (duckduckgoExtract doc = some (Except.ok m) →
      ∀ p ∈ m, p.1 = p.2.url ∧ p.2.engines = ["duckduckgo"] ∧
        ∃ c' ∈ doc.containers, extractResult c' = some p.2) := by
  constructor
  · intro h1 h2 h3
    simp only [extractResult, h1, h2, h3]
  · intro hm p hp
    by_cases hnr : doc.no_results = true
    · rw [duckduckgoExtract, if_pos hnr] at hm
      simp at hm
    · rw [duckduckgoExtract, if_neg hnr] at hm
      cases hall : extractAll doc.containers with
      | none => rw [hall] at hm; simp at hm
      | some rs =>
        rw [hall] at hm
        simp only [Option.some.injEq, Except.ok.injEq] at hm
        subst hm
        have hS : ∀ r ∈ rs, r.engines = ["duckduckgo"] ∧
            ∃ c' ∈ doc.containers, extractResult c' = some r := by
          intro r hr
          obtain ⟨c', hc', he'⟩ := extractAll_mem doc.containers rs hall r hr
          exact ⟨(extractResult_some c' r he').1, c', hc', he'⟩
        have hp' : p ∈ rs.foldl (fun acc r => insertKV acc r.url r) [] := by
          simpa [buildMap] using hp
        have hinv := buildMap_inv
          (fun r => r.engines = ["duckduckgo"] ∧
            ∃ c' ∈ doc.containers, extractResult c' = some r)
          rs [] (by simp) hS p hp'
        exact ⟨hinv.1, hinv.2.1, hinv.2.2⟩

/-- C6 witness: the extraction theorem discharged on a concrete container with
leading/trailing whitespace and a host-only URL, and on the one-entry map an
extraction of it produces. -/
theorem c6_extraction_witness :
    extractResult ⟨some " Foo ", some " example.com ", some " about foo "⟩ =
      some ⟨trimStr " Foo ", "https://" ++ trimStr " example.com ", trimStr " about foo ",
        ["duckduckgo"]⟩ ∧
    ("https://example.com" : String) =
      (⟨"Foo", "https://example.com", "about foo", ["duckduckgo"]⟩ : SearchResult).url ∧
    (⟨"Foo", "https://example.com", "about foo", ["duckduckgo"]⟩ : SearchResult).engines =
      ["duckduckgo"] := by
  have h := c6_extraction ⟨some " Foo ", some " example.com ", some " about foo "⟩
    " Foo " " example.com " " about foo "
    ⟨false, [⟨some " Foo ", some " example.com ", some " about foo "⟩]⟩
    [("https://example.com",
      ⟨"Foo", "https://example.com", "about foo", ["duckduckgo"]⟩)]
  have h1 := h.1 rfl rfl rfl
  have h2 := h.2 rfl ("https://example.com",
    ⟨"Foo", "https://example.com", "about foo", ["duckduckgo"]⟩)
    (List.mem_singleton.mpr rfl)
  exact ⟨h1, h2.1, h2.2.1⟩

/-- C7: whenever the `.no-results` marker element is present in the fetched
document, the operation fails with `EngineError::EmptyResultSet` and returns
no partial results; the check precedes extraction — the containers (even
malformed ones that would panic the extraction) are never touched. -/
theorem c7_empty_result (doc : HtmlDoc) (hnr : doc.no_results = true) :
    duckduckgoExtract doc = some (Except.error EngineError.EmptyResultSet) := by
  rw [duckduckgoExtract, if_pos hnr]

/-- C7 witness: the empty-result theorem discharged on a document carrying the
marker and a malformed container (which would panic were extraction run). -/
theorem c7_empty_result_witness :
    duckduckgoExtract ⟨true, [⟨none, none, none⟩]⟩ =
      some (Except.error EngineError.EmptyResultSet) :=
  c7_empty_result ⟨true, [⟨none, none, none⟩]⟩ rfl

/-- C8: every command `cache_results` issues is
`SET hashed-url json_results EX 60`, and on a successful write replaying the
issued commands against any backend store leaves the hashed-url key bound to
the serialized results with a ttl of exactly 60 seconds. -/
theorem c8_set_ttl (self : RedisCache) (json url : String) :
    (∀ p ∈ (cache_results self json url).2.2,
        p.2 = RedisCmd.setExCmd (hash_url self url) json 60) ∧
    ((cache_results self json url).1 = Outcome.ok () → ∀ st : Store,
      (((cache_results self json url).2.2.map Prod.snd).foldl execStore st)
          (hash_url self url) = some (json, 60)) := by
  obtain ⟨pool, N, cc0⟩ := self
  obtain ⟨l, hl, hcl⟩ := cache_results_trace_shape pool N cc0 json url
  constructor
  · exact cache_results_cmds pool N cc0 json url
  · intro _ st
    have hne : ((cache_results ⟨pool, N, cc0⟩ json url).2.2.map Prod.snd) ≠ [] := by
      rw [hl]; simp
    refine foldl_setEx (md5Hex url) json 60 _ st hne ?_
    intro cmdx hx
    obtain ⟨p, hp, hps⟩ := List.mem_map.mp hx
    rw [← hps]
    exact cache_results_cmds pool N cc0 json url p hp

/-- C8 witness: a successful write on a healthy one-slot pool leaves the
hashed key bound to the results with ttl 60 in the replayed store. -/
theorem c8_set_ttl_witness :
    (((cache_results ⟨[connGood "x"], 1, 0⟩ "res" "u").2.2.map Prod.snd).foldl
        execStore emptyStore) (hash_url ⟨[connGood "x"], 1, 0⟩ "u") =
      some ("res", 60) := by
  have hfst := cache_results_fst_eq [connGood "x"] 1 0 "res" "u" (by simp)
  have hcall := failoverLoop_ok (fun c => c.set_ex (md5Hex "u") "res" 60)
    (RedisCmd.setExCmd (md5Hex "u") "res" 60) [connGood "x"] 1 0 ()
    ((connAt [connGood "x"] 0).set_ex (md5Hex "u") "res" 60) rfl (by omega)
    (fun i hi => absurd hi (by omega)) rfl rfl
  exact (c8_set_ttl ⟨[connGood "x"], 1, 0⟩ "res" "u").2 (by rw [hfst, hcall]) emptyStore

/-- C9: `hash_url` is deterministic — it depends on neither the cache instance
nor the call site — and returns a fixed-length (32-character) key; every
command either operation issues uses the hashed key, not the raw url, and
urls with equal hashes are indistinguishable to both operations. -/
theorem c9_hash_key (c1 c2 self : RedisCache) (u u1 u2 json : String) :
    hash_url c1 u = hash_url c2 u ∧
    (hash_url c1 u).length = 32 ∧
    (∀ p ∈ (cached_json self u).2.2, p.2 = RedisCmd.getCmd (hash_url self u)) ∧
    (∀ p ∈ (cache_results self json u).2.2,
        p.2 = RedisCmd.setExCmd (hash_url self u) json 60) ∧
    (hash_url c1 u1 = hash_url c2 u2 →
      cached_json self u1 = cached_json self u2 ∧
        cache_results self json u1 = cache_results self json u2) := by
  obtain ⟨pool, N, cc0⟩ := self
  refine ⟨rfl, md5Hex_length u, cached_json_cmds pool N cc0 u,
    cache_results_cmds pool N cc0 json u, ?_⟩
  intro h
  have h' : md5Hex u1 = md5Hex u2 := h
  constructor
  · show cached_json ⟨pool, N, cc0⟩ u1 = cached_json ⟨pool, N, cc0⟩ u2
    simp only [cached_json, hash_url]
    rw [h']
  · show cache_results ⟨pool, N, cc0⟩ json u1 = cache_results ⟨pool, N, cc0⟩ json u2
    simp only [cache_results, hash_url]
    rw [h']

/-- C9 witness: determinism across two distinct cache instances, the 32-character
key length, and hash-equality invariance discharged at a concrete url. -/
theorem c9_hash_key_witness :
    hash_url ⟨[], 7, 0⟩ "https://a" = hash_url ⟨[], 3, 1⟩ "https://a" ∧
    (hash_url ⟨[], 7, 0⟩ "https://a").length = 32 ∧
    cached_json ⟨[connGood "v"], 1, 0⟩ "https://a" =
      cached_json ⟨[connGood "v"], 1, 0⟩ "https://a" := by
  have h := c9_hash_key ⟨[], 7, 0⟩ ⟨[], 3, 1⟩ ⟨[connGood "v"], 1, 0⟩
    "https://a" "https://a" "https://a" "j"
  exact ⟨h.1, h.2.1, (h.2.2.2.2 rfl).1⟩

/-- C10: on every outcome — success, pool exhaustion, wrapped backend error,
or panic — both operations leave `connection_pool` and `pool_size` unchanged;
the only field they mutate is the failover cursor `current_connection`. -/
theorem c10_frame (self : RedisCache) (url json : String) :
    (cached_json self url).2.1.connection_pool = self.connection_pool ∧
    (cached_json self url).2.1.pool_size = self.pool_size ∧
    (cache_results self json url).2.1.connection_pool = self.connection_pool ∧
    (cache_results self json url).2.1.pool_size = self.pool_size := by
  obtain ⟨pool, N, cc0⟩ := self
  by_cases h0 : 0 < pool.length
  · rw [cached_json_loop pool N cc0 url h0, cache_results_loop pool N cc0 json url h0]
    exact ⟨rfl, rfl, rfl, rfl⟩
  · rw [cached_json_empty pool N cc0 url h0, cache_results_empty pool N cc0 json url h0]
    exact ⟨rfl, rfl, rfl, rfl⟩
